import Mathlib

/-!
Verification of the CSV processing pipeline in `streamlit_app.py`
(repository `Close-Input-File`).

The script runs a nine-step batch transformation over an in-memory
table: merge, column pruning, column synthesis (alternating
`Mail_CallRail` codes plus two constant columns), first-wins
deduplication on `AGGR_GROUP`, text normalization (title case, with
ALL CAPS for state columns), company-keyword row filtering on
`OWNER_NAME_1`, recency filtering on `DATE_TRANSFER`, and header
renaming.  The definitions below are a shallow embedding of the
functions and module-level steps of that script; pandas and Python
library primitives (`str.title`, `str.upper`, substring search,
`drop_duplicates`, `to_datetime`) are embedded at the granularity the
script uses them, restricted to the ASCII fragment of Python's casing
rules.  Time instants are integers counted in seconds, so one day is
86400 ticks.  Theorems settling the specification claims follow the
definitions.
-/

/-! ### ASCII model of Python string casing -/

/-- ASCII uppercasing of a single character, as Python's `str.upper`
acts on ASCII text: a lowercase letter (code 97..122) is shifted down
by 32, everything else is unchanged. -/
def asciiUp (c : Char) : Char :=
  if 97 ≤ c.toNat ∧ c.toNat ≤ 122 then Char.ofNat (c.toNat - 32) else c

/-- ASCII lowercasing of a single character, as Python's `str.lower`
acts on ASCII text: an uppercase letter (code 65..90) is shifted up by
32, everything else is unchanged. -/
def asciiLo (c : Char) : Char :=
  if 65 ≤ c.toNat ∧ c.toNat ≤ 90 then Char.ofNat (c.toNat + 32) else c

/-- Whether a character is cased in Python's sense, restricted to
ASCII: an ASCII letter. `str.title` starts a new word exactly after a
character that is not cased. -/
def pyCased (c : Char) : Bool :=
  decide ((65 ≤ c.toNat ∧ c.toNat ≤ 90) ∨ (97 ≤ c.toNat ∧ c.toNat ≤ 122))

/-- Character-list worker for Python `str.title`: the boolean state
records whether the previous input character was cased; an uncased
predecessor makes the current letter uppercase, a cased predecessor
makes it lowercase. -/
def titleMap : Bool → List Char → List Char
  | _, [] => []
  | prev, c :: cs => (if prev then asciiLo c else asciiUp c) :: titleMap (pyCased c) cs

/-- Python `str.title` on ASCII text, as pandas `.str.title` applies it
in `apply_title_case` (streamlit_app.py line 45). -/
def pyTitle (s : String) : String :=
  String.mk (titleMap false s.data)

/-- Python `str.upper` on ASCII text, as pandas `.str.upper` applies it
to state columns in `apply_title_case` (streamlit_app.py line 42). -/
def pyUpper (s : String) : String :=
  String.mk (s.data.map asciiUp)

/-- Python `str.lower` on ASCII text; used to model the
case-insensitive (`case=False`) keyword match of `filter_company_rows`
(streamlit_app.py line 60). -/
def pyLower (s : String) : String :=
  String.mk (s.data.map asciiLo)

/-- Character-list worker for `specTitle`: the boolean state records
whether we are at the start of a whitespace-delimited word. -/
def specTitleMap : Bool → List Char → List Char
  | _, [] => []
  | atStart, c :: cs =>
    if c.isWhitespace then c :: specTitleMap true cs
    else (if atStart then asciiUp c else asciiLo c) :: specTitleMap false cs

/-- Modelled from the spec's words, for comparison with `pyTitle`:
"title-casing (first letter of each whitespace-delimited word
capitalized, rest lowercased)".  Words are delimited by whitespace
only, so a letter following a non-letter non-whitespace character
(such as a hyphen) stays lowercase. -/
def specTitle (s : String) : String :=
  String.mk (specTitleMap true s.data)

/-! ### Substring search -/

/-- Whether the first character list starts the second one. -/
def chStarts : List Char → List Char → Bool
  | [], _ => true
  | _ :: _, [] => false
  | a :: as, b :: bs => a == b && chStarts as bs

/-- Whether the first character list occurs contiguously inside the
second one. -/
def chSub (needle : List Char) : List Char → Bool
  | [] => chStarts needle []
  | b :: bs => chStarts needle (b :: bs) || chSub needle bs

/-- Whether `needle` occurs as a contiguous substring of `hay`; models
the literal-alternation regex search performed by pandas
`.str.contains` in `filter_company_rows` (the pattern is a `|`-join of
`re.escape`d keywords, so it matches exactly when some keyword occurs
literally). -/
def strContains (hay needle : String) : Bool :=
  chSub needle.data hay.data

/-! ### Data model: cells, rows, tables -/

/-- Value of one table cell: text, a parsed timestamp, a number, or
the missing marker (pandas `NaN` / `NaT`). -/
inductive Cell where
  | str : String → Cell
  | timestamp : Int → Cell
  | num : Int → Cell
  | missing : Cell
deriving DecidableEq, Repr

/-- Row of the working table: an ordered association of column names
to cell values. -/
abbrev Row := List (String × Cell)

/-- Working table: ordered column names plus rows.  In a well-formed
table every row lists exactly the columns of `cols`, in order. -/
structure DF where
  cols : List String
  rows : List Row
deriving DecidableEq, Repr

/-- Value of row `r` at column `c`; the first matching pair wins, and
an absent column reads as the missing marker. -/
def getCell : Row → String → Cell
  | [], _ => Cell.missing
  | (k, v) :: r, c => if k = c then v else getCell r c

/-- Overwrite the value at column `c` in row `r` (all pairs carrying
that name), as a pandas column assignment does; a row without the
column is unchanged. -/
def setCell : Row → String → Cell → Row
  | [], _, _ => []
  | (k, v) :: r, c, w => (k, if k = c then w else v) :: setCell r c w

/-- Well-formedness of a working table: column names are distinct and
every row lists exactly the columns of `cols`, in order. -/
def wfDF (df : DF) : Prop :=
  df.cols.Nodup ∧ ∀ r ∈ df.rows, r.map Prod.fst = df.cols

instance (df : DF) : Decidable (wfDF df) := by
  unfold wfDF; infer_instance

/-! ### Fixed configuration constants (streamlit_app.py lines 13-32, 36) -/

/-- Columns deleted by Step 2 (streamlit_app.py lines 13-17). -/
def COLUMNS_TO_DELETE : List String :=
  ["OWNER_NAME_STD", "OWNER_TYPE", "OWNER_OCCUPIED", "ASSR_LINK_APN1",
   "PROP_ADDRESS", "PROP_CITY", "PROP_STATE", "PROP_ZIP",
   "LAND_SQFT", "UNITS_NUMBER", "CENSUS_BLOCK_GROUP", "_SIMPLIFIED"]

/-- Old-to-new header map applied by Step 8 (streamlit_app.py lines 20-29). -/
def COLUMN_RENAMES : List (String × String) :=
  [("OWNER_NAME_1", "NAME"),
   ("OWNER_1_FIRST", "FIRST NAME"),
   ("OWNER_1_LAST", "LAST NAME"),
   ("OWNER_ADDRESS", "ADDRESS"),
   ("OWNER_CITY", "CITY"),
   ("OWNER_STATE", "address_1_state"),
   ("OWNER_ZIP", "ZIP/POSTAL CODE"),
   ("SITE_STATE", "custom.State")]

/-- Organization-indicator keywords filtered by Step 6
(streamlit_app.py line 32); most carry a leading space. -/
def COMPANY_KEYWORDS : List String :=
  [" llc", " corp", " ltd", " assoc", " company", " lp", "partnership", " inc"]

/-- State columns uppercased rather than title-cased by
`apply_title_case` (streamlit_app.py line 36). -/
def state_columns : List String :=
  ["PROP_STATE", "SITE_STATE", "OWNER_STATE", "address_1_state", "custom.State"]

/-! ### Step 2: delete columns (streamlit_app.py lines 130-133) -/

/-- Step 2: drop every column of `COLUMNS_TO_DELETE` that is present;
absent names are silently skipped. -/
def step2_prune (df : DF) : DF :=
  { cols := df.cols.filter (fun c => !(decide (c ∈ COLUMNS_TO_DELETE))),
    rows := df.rows.map (fun r => r.filter (fun p => !(decide (p.1 ∈ COLUMNS_TO_DELETE)))) }

/-! ### Step 3: add columns (streamlit_app.py lines 136-145) -/

/-- Column assignment `df[c] = vals`, as pandas performs it: an
existing column is overwritten in place, a new column is appended on
the right. -/
def assignCol (df : DF) (c : String) (vals : List Cell) : DF :=
  if c ∈ df.cols then
    { cols := df.cols,
      rows := (df.rows.zip vals).map (fun rv => setCell rv.1 c rv.2) }
  else
    { cols := df.cols ++ [c],
      rows := (df.rows.zip vals).map (fun rv => rv.1 ++ [(c, rv.2)]) }

/-- Step 3: append `Mail_CallRail` with values alternating between
`code1` (even zero-based positions) and `code2` (odd positions),
then the constant columns `Lead_Type = "Basic"` and
`Mail_Type = "Neutral Postcard"`. -/
def step3_synthesize (code1 code2 : String) (df : DF) : DF :=
  let mail_callrail_values :=
    (List.range df.rows.length).map
      (fun i => Cell.str (if i % 2 = 0 then code1 else code2))
  let d1 := assignCol df "Mail_CallRail" mail_callrail_values
  let d2 := assignCol d1 "Lead_Type" (List.replicate d1.rows.length (Cell.str "Basic"))
  assignCol d2 "Mail_Type" (List.replicate d2.rows.length (Cell.str "Neutral Postcard"))

/-! ### Step 4: deduplicate (streamlit_app.py lines 148-155) -/

/-- First-wins scan behind `drop_duplicates(subset=[key])`: a row is
kept when its key value has not been seen before; missing keys compare
equal to each other, forming one group. -/
def dedupGo (key : String) (seen : List Cell) : List Row → List Row
  | [] => []
  | r :: rs =>
    if getCell r key ∈ seen then dedupGo key seen rs
    else r :: dedupGo key (getCell r key :: seen) rs

/-- Step 4: `drop_duplicates(subset=['AGGR_GROUP'])` when the column
exists, otherwise the table passes through unchanged (with a skip
warning in the script). -/
def step4_dedup (df : DF) : DF :=
  if "AGGR_GROUP" ∈ df.cols then
    { df with rows := dedupGo "AGGR_GROUP" [] df.rows }
  else df

/-! ### Step 5: text normalization (streamlit_app.py lines 34-47, 157-160) -/

/-- Whether column `c` of `df` is text-typed (pandas dtype `object`
for the spec's data model): every value is text or missing, and at
least one value is text. -/
def is_text_col (df : DF) (c : String) : Bool :=
  df.rows.all (fun r =>
    match getCell r c with
    | Cell.str _ => true
    | Cell.missing => true
    | _ => false) &&
  df.rows.any (fun r =>
    match getCell r c with
    | Cell.str _ => true
    | _ => false)

/-- Pandas `.str.upper` on one cell: text is uppercased, the missing
marker (and any non-text value) passes through. -/
def cellUpper : Cell → Cell
  | Cell.str s => Cell.str (pyUpper s)
  | v => v

/-- Pandas `.str.title` on one cell: text is title-cased, the missing
marker (and any non-text value) passes through. -/
def cellTitle : Cell → Cell
  | Cell.str s => Cell.str (pyTitle s)
  | v => v

/-- Per-cell action of `apply_title_case` on the named pair: a cell of
a text-typed column is uppercased when the column is a state column
and title-cased otherwise; cells of non-text columns are untouched. -/
def applyColPolicy (df : DF) (p : String × Cell) : String × Cell :=
  if is_text_col df p.1 then
    if p.1 ∈ state_columns then (p.1, cellUpper p.2) else (p.1, cellTitle p.2)
  else p

/-- Steps 5's `apply_title_case` (streamlit_app.py lines 34-47): every
text column is rewritten in place, state columns to ALL CAPS and all
other text columns to Python title case; `NaN` values are preserved. -/
def apply_title_case (df : DF) : DF :=
  { df with rows := df.rows.map (fun r => r.map (applyColPolicy df)) }

/-! ### Step 6: company filter (streamlit_app.py lines 49-64, 162-165) -/

/-- Python `str()` coercion performed by `.astype(str)` before the
keyword match: the missing marker becomes the text "nan". -/
def astype_str : Cell → String
  | Cell.str s => s
  | Cell.num n => toString n
  | Cell.timestamp t => toString t
  | Cell.missing => "nan"

/-- Whether a coerced owner-name value matches the company-keyword
pattern of `filter_company_rows`: some keyword occurs in it as a
case-insensitive substring. -/
def containsAnyKeyword (s : String) : Bool :=
  COMPANY_KEYWORDS.any (fun k => strContains (pyLower s) (pyLower k))

/-- Function `filter_company_rows` (streamlit_app.py lines 49-64).  It
mirrors the source's asymmetric returns: when the owner-name column is
absent it returns the bare table (`return df`, line 52), and otherwise
a pair of the filtered table and the removed-row count (`return
df_filtered, removed_count`, line 64). -/
def filter_company_rows (df : DF) (owner_name_col : String := "OWNER_NAME_1") :
    DF ⊕ (DF × Nat) :=
  if owner_name_col ∈ df.cols then
    Sum.inr
      (DF.mk df.cols
        (df.rows.filter
          (fun r => !(containsAnyKeyword (astype_str (getCell r owner_name_col))))),
       df.rows.length
         - (df.rows.filter
             (fun r => !(containsAnyKeyword (astype_str (getCell r owner_name_col))))).length)
  else
    Sum.inl df

/-! ### Step 7: recency filter (streamlit_app.py lines 66-89, 167-170) -/

/-- Pandas `to_datetime(-, errors='coerce')` on one cell, with the
text-parsing done by the ambient parser `parse`: missing stays
missing (`NaT`), an existing timestamp is kept, a number is read as an
epoch instant, and text parses to `some` instant or fails to `none`
(`NaT`). -/
def to_datetime (parse : String → Option Int) : Cell → Option Int
  | Cell.missing => none
  | Cell.timestamp t => some t
  | Cell.num n => some n
  | Cell.str s => parse s

/-- In-place rewrite of the date column of one row performed by line
78 of the source: the parsed value replaces the original, an
unparseable or missing value becomes the missing marker. -/
def rewriteDate (parse : String → Option Int) (date_col : String) (r : Row) : Row :=
  setCell r date_col
    (match to_datetime parse (getCell r date_col) with
     | none => Cell.missing
     | some t => Cell.timestamp t)

/-- Function `filter_recent_transactions` (streamlit_app.py lines
66-89).  `now` is `datetime.now()` at processing time; the cutoff is
`now - years * 365` days (86400 ticks per day).  The date column is
first rewritten by parsing; rows whose rewritten date is missing or
strictly earlier than the cutoff are retained.  An absent date column
passes the table through with zero removed.  (The source's
`except` fallback cannot fire here because `errors='coerce'` parsing
is total.) -/
def filter_recent_transactions (parse : String → Option Int) (now : Int) (df : DF)
    (date_col : String := "DATE_TRANSFER") (years : Nat := 10) : DF × Nat :=
  if date_col ∈ df.cols then
    (DF.mk df.cols
      ((df.rows.map (rewriteDate parse date_col)).filter (fun r =>
        match getCell r date_col with
        | Cell.missing => true
        | Cell.timestamp t => decide (t < now - (years * 365 : Nat) * 86400)
        | _ => false)),
     df.rows.length
       - ((df.rows.map (rewriteDate parse date_col)).filter (fun r =>
           match getCell r date_col with
           | Cell.missing => true
           | Cell.timestamp t => decide (t < now - (years * 365 : Nat) * 86400)
           | _ => false)).length)
  else (df, 0)

/-! ### Step 8: rename headers (streamlit_app.py lines 172-176) -/

/-- Lookup in the fixed rename map. -/
def lookupRename : List (String × String) → String → Option String
  | [], _ => none
  | (o, n) :: m, c => if o = c then some n else lookupRename m c

/-- New name of a column under Step 8: the mapped name when the column
is an old name of `COLUMN_RENAMES`, otherwise the column itself
(unmatched map entries are ignored by `rename`). -/
def renameKey (c : String) : String :=
  (lookupRename COLUMN_RENAMES c).getD c

/-- Step 8: `df.rename(columns=existing_renames)`; restricting the map
to columns that exist is exactly label-wise application of
`renameKey`. -/
def step8_rename (df : DF) : DF :=
  { cols := df.cols.map renameKey,
    rows := df.rows.map (fun r => r.map (fun p => (renameKey p.1, p.2))) }

/-! ### Pipeline and failure surface (streamlit_app.py lines 111-231) -/

/-- Fault raised inside a pipeline step: the step in whose body it was
raised, and the exception text `str(e)`.  Only the text reaches the
module-level handler. -/
structure StepFault where
  step : String
  msg : String
deriving DecidableEq, Repr

/-- Message shown by the module-level `except` handler
(streamlit_app.py line 230): `"Error processing files: " + str(e)`. -/
def handlerMessage (e : StepFault) : String :=
  "Error processing files: " ++ e.msg

/-- Outcome surfaced by the shell: on success the final table (offered
for download) and no error text; on an unhandled fault no table and
the single handler message. -/
def moduleHandler : Except StepFault DF → Option DF × Option String
  | Except.ok df => (some df, none)
  | Except.error e => (none, some (handlerMessage e))

/-- Steps 2 through 8 of the module-level pipeline, starting from the
merged table.  Step 6 unpacks the result of `filter_company_rows` into
a (table, count) pair (line 164); when that function returns a bare
table, the unpacking raises and the run aborts with the fault caught
by the module-level handler. -/
def runPipeline (parse : String → Option Int) (now : Int)
    (code1 code2 : String) (merged_df : DF) : Except StepFault DF :=
  let df2 := step2_prune merged_df
  let df3 := step3_synthesize code1 code2 df2
  let df4 := step4_dedup df3
  let df5 := apply_title_case df4
  match filter_company_rows df5 "OWNER_NAME_1" with
  | Sum.inl _ =>
    Except.error { step := "Step 6: Filtering out company records",
                   msg := "too many values to unpack (expected 2)" }
  | Sum.inr (df6, _) =>
    let df7 := (filter_recent_transactions parse now df6 "DATE_TRANSFER" 10).1
    Except.ok (step8_rename df7)

/-! ### Concrete sample tables for witnesses and counterexamples -/

/-- One-row merged table holding only an owner-name column. -/
def dfOwnerOnly : DF :=
  DF.mk ["OWNER_NAME_1"] [[("OWNER_NAME_1", Cell.str "John Doe")]]

/-- Three-column table without an owner-name column. -/
def dfNoOwner : DF :=
  DF.mk ["A", "B", "C"] [[("A", Cell.str "x"), ("B", Cell.missing), ("C", Cell.num 3)]]

/-- Date parser used in concrete runs: "old" is the epoch instant 0,
"new" is a late instant, everything else fails to parse. -/
def sampleParse (s : String) : Option Int :=
  if s = "old" then some 0 else if s = "new" then some 999999999999 else none

/-- Four-row table with a date column: an old date, a recent date, an
unparseable date and a missing date. -/
def dfDates : DF :=
  DF.mk ["DATE_TRANSFER"]
    [[("DATE_TRANSFER", Cell.str "old")],
     [("DATE_TRANSFER", Cell.str "new")],
     [("DATE_TRANSFER", Cell.str "junk")],
     [("DATE_TRANSFER", Cell.missing)]]

/-- Owner-name table with a company row, an individual row and a
missing owner. -/
def dfOwners : DF :=
  DF.mk ["OWNER_NAME_1"]
    [[("OWNER_NAME_1", Cell.str "Smith Family LLC")],
     [("OWNER_NAME_1", Cell.str "Smith Family")],
     [("OWNER_NAME_1", Cell.missing)]]

/-- Table with duplicate grouping keys, including duplicate missing
keys. -/
def dfGroups : DF :=
  DF.mk ["AGGR_GROUP", "V"]
    [[("AGGR_GROUP", Cell.missing), ("V", Cell.str "r1")],
     [("AGGR_GROUP", Cell.str "g"), ("V", Cell.str "r2")],
     [("AGGR_GROUP", Cell.missing), ("V", Cell.str "r3")],
     [("AGGR_GROUP", Cell.str "g"), ("V", Cell.str "r4")]]

/-- One-column text table exercising title case on a hyphenated
value. -/
def dfHyphen : DF := DF.mk ["A"] [[("A", Cell.str "a-b")]]

/-- Table mixing a plain text column, a state column, an owner column
and a date column, with missing values in each. -/
def dfTexts : DF :=
  DF.mk ["OWNER_CITY", "OWNER_STATE", "OWNER_NAME_1", "DATE_TRANSFER"]
    [[("OWNER_CITY", Cell.str "new york"), ("OWNER_STATE", Cell.str "tx"),
      ("OWNER_NAME_1", Cell.missing), ("DATE_TRANSFER", Cell.missing)],
     [("OWNER_CITY", Cell.missing), ("OWNER_STATE", Cell.missing),
      ("OWNER_NAME_1", Cell.str "Jane Roe"), ("DATE_TRANSFER", Cell.str "old")]]

/-- First row of `dfTexts`, whose owner name and date are missing. -/
def dfTextsRow : Row :=
  [("OWNER_CITY", Cell.str "new york"), ("OWNER_STATE", Cell.str "tx"),
   ("OWNER_NAME_1", Cell.missing), ("DATE_TRANSFER", Cell.missing)]

/-- Table whose headers are already the renamed ones, so no old-map
name remains. -/
def dfRenamed : DF :=
  DF.mk ["NAME", "custom.State"]
    [[("NAME", Cell.str "Jane Roe"), ("custom.State", Cell.str "TX")]]

/-! ### Lemmas about the ASCII casing model -/

theorem toNat_ofNat_valid {n : Nat} (h : n.isValidChar) : (Char.ofNat n).toNat = n := by
  rw [Char.ofNat, dif_pos h]
  rfl

theorem asciiUp_of_cond {c : Char} (h : 97 ≤ c.toNat ∧ c.toNat ≤ 122) :
    asciiUp c = Char.ofNat (c.toNat - 32) := by
  unfold asciiUp
  exact if_pos h

theorem asciiUp_of_not {c : Char} (h : ¬(97 ≤ c.toNat ∧ c.toNat ≤ 122)) :
    asciiUp c = c := by
  unfold asciiUp
  exact if_neg h

theorem toNat_asciiUp_of_cond {c : Char} (h : 97 ≤ c.toNat ∧ c.toNat ≤ 122) :
    (asciiUp c).toNat = c.toNat - 32 := by
  rw [asciiUp_of_cond h]
  exact toNat_ofNat_valid (Or.inl (by omega))

theorem asciiLo_of_cond {c : Char} (h : 65 ≤ c.toNat ∧ c.toNat ≤ 90) :
    asciiLo c = Char.ofNat (c.toNat + 32) := by
  unfold asciiLo
  exact if_pos h

theorem asciiLo_of_not {c : Char} (h : ¬(65 ≤ c.toNat ∧ c.toNat ≤ 90)) :
    asciiLo c = c := by
  unfold asciiLo
  exact if_neg h

theorem toNat_asciiLo_of_cond {c : Char} (h : 65 ≤ c.toNat ∧ c.toNat ≤ 90) :
    (asciiLo c).toNat = c.toNat + 32 := by
  rw [asciiLo_of_cond h]
  exact toNat_ofNat_valid (Or.inl (by omega))

theorem asciiUp_asciiUp (c : Char) : asciiUp (asciiUp c) = asciiUp c := by
  by_cases h : 97 ≤ c.toNat ∧ c.toNat ≤ 122
  · apply asciiUp_of_not
    rw [toNat_asciiUp_of_cond h]
    omega
  · rw [asciiUp_of_not h]
    exact asciiUp_of_not h

theorem asciiLo_asciiLo (c : Char) : asciiLo (asciiLo c) = asciiLo c := by
  by_cases h : 65 ≤ c.toNat ∧ c.toNat ≤ 90
  · apply asciiLo_of_not
    rw [toNat_asciiLo_of_cond h]
    omega
  · rw [asciiLo_of_not h]
    exact asciiLo_of_not h

theorem pyCased_asciiUp (c : Char) : pyCased (asciiUp c) = pyCased c := by
  unfold pyCased
  apply decide_eq_decide.mpr
  by_cases h : 97 ≤ c.toNat ∧ c.toNat ≤ 122
  · rw [toNat_asciiUp_of_cond h]
    omega
  · rw [asciiUp_of_not h]

theorem pyCased_asciiLo (c : Char) : pyCased (asciiLo c) = pyCased c := by
  unfold pyCased
  apply decide_eq_decide.mpr
  by_cases h : 65 ≤ c.toNat ∧ c.toNat ≤ 90
  · rw [toNat_asciiLo_of_cond h]
    omega
  · rw [asciiLo_of_not h]

theorem titleMap_idem (l : List Char) : ∀ b, titleMap b (titleMap b l) = titleMap b l := by
  induction l with
  | nil => intro b; rfl
  | cons c cs ih =>
    intro b
    cases b with
    | false =>
      show titleMap false (asciiUp c :: titleMap (pyCased c) cs)
        = asciiUp c :: titleMap (pyCased c) cs
      show (if false then asciiLo (asciiUp c) else asciiUp (asciiUp c))
          :: titleMap (pyCased (asciiUp c)) (titleMap (pyCased c) cs)
        = asciiUp c :: titleMap (pyCased c) cs
      rw [if_neg (by simp), asciiUp_asciiUp, pyCased_asciiUp, ih (pyCased c)]
    | true =>
      show (if true then asciiLo (asciiLo c) else asciiUp (asciiLo c))
          :: titleMap (pyCased (asciiLo c)) (titleMap (pyCased c) cs)
        = asciiLo c :: titleMap (pyCased c) cs
      rw [if_pos (by simp), asciiLo_asciiLo, pyCased_asciiLo, ih (pyCased c)]

theorem pyTitle_idem (s : String) : pyTitle (pyTitle s) = pyTitle s := by
  unfold pyTitle
  exact congrArg String.mk (titleMap_idem s.data false)

theorem pyUpper_idem (s : String) : pyUpper (pyUpper s) = pyUpper s := by
  unfold pyUpper
  apply congrArg String.mk
  rw [List.map_map]
  exact List.map_congr_left (fun c _ => asciiUp_asciiUp c)

/-! ### Lemmas about rows and cells -/

theorem getCell_cons (q : String × Cell) (t : Row) (c : String) :
    getCell (q :: t) c = if q.1 = c then q.2 else getCell t c := by
  obtain ⟨k, v⟩ := q
  rfl

theorem setCell_cons (q : String × Cell) (t : Row) (c : String) (w : Cell) :
    setCell (q :: t) c w = (q.1, if q.1 = c then w else q.2) :: setCell t c w := by
  obtain ⟨k, v⟩ := q
  rfl

theorem setCell_of_not_mem (r : Row) (c : String) (w : Cell)
    (h : c ∉ r.map Prod.fst) : setCell r c w = r := by
  induction r with
  | nil => rfl
  | cons q t ih =>
    rw [setCell_cons]
    rw [List.map_cons, List.mem_cons] at h
    push_neg at h
    rw [if_neg (fun hq => h.1 hq.symm), ih h.2]

theorem setCell_getCell_self (r : Row) (c : String)
    (hnd : (r.map Prod.fst).Nodup) : setCell r c (getCell r c) = r := by
  induction r with
  | nil => rfl
  | cons q t ih =>
    rw [List.map_cons, List.nodup_cons] at hnd
    rw [setCell_cons, getCell_cons]
    by_cases hq : q.1 = c
    · rw [if_pos hq, if_pos hq]
      rw [setCell_of_not_mem t c q.2 (hq ▸ hnd.1)]
    · rw [if_neg hq, if_neg hq, ih hnd.2]

theorem getCell_setCell_self (r : Row) (c : String) (w : Cell)
    (h : c ∈ r.map Prod.fst) : getCell (setCell r c w) c = w := by
  induction r with
  | nil => simp at h
  | cons q t ih =>
    rw [setCell_cons, getCell_cons]
    by_cases hq : q.1 = c
    · rw [if_pos hq, if_pos hq]
    · rw [List.map_cons, List.mem_cons] at h
      rcases h with h | h
      · exact absurd h.symm hq
      · simp only [if_neg hq]
        exact ih h

theorem getCell_setCell_of_ne (r : Row) (c c' : String) (w : Cell) (h : c ≠ c') :
    getCell (setCell r c w) c' = getCell r c' := by
  induction r with
  | nil => rfl
  | cons q t ih =>
    rw [setCell_cons, getCell_cons, getCell_cons]
    by_cases hq : q.1 = c'
    · have hne : ¬ q.1 = c := fun hcc => h (hcc.symm.trans hq)
      rw [if_pos hq, if_pos hq, if_neg hne]
    · rw [if_neg hq, if_neg hq, ih]

theorem map_fst_setCell (r : Row) (c : String) (w : Cell) :
    (setCell r c w).map Prod.fst = r.map Prod.fst := by
  induction r with
  | nil => rfl
  | cons q t ih =>
    rw [setCell_cons, List.map_cons, List.map_cons, ih]

theorem getCell_append (r1 r2 : Row) (c : String) :
    getCell (r1 ++ r2) c
      = if c ∈ r1.map Prod.fst then getCell r1 c else getCell r2 c := by
  induction r1 with
  | nil => simp [getCell]
  | cons q t ih =>
    rw [List.cons_append, getCell_cons, List.map_cons]
    by_cases hq : q.1 = c
    · rw [if_pos hq, if_pos (List.mem_cons.mpr (Or.inl hq.symm)), getCell_cons, if_pos hq]
    · rw [if_neg hq, ih]
      by_cases hc : c ∈ t.map Prod.fst
      · rw [if_pos hc, if_pos (List.mem_cons.mpr (Or.inr hc)), getCell_cons, if_neg hq]
      · have hnc : c ∉ q.1 :: t.map Prod.fst := by
          intro hmem
          rcases List.mem_cons.mp hmem with hmem | hmem
          · exact hq hmem.symm
          · exact hc hmem
        rw [if_neg hc, if_neg hnc]

/-! ### Lemmas about the text-normalization step -/

theorem applyColPolicy_fst (df : DF) (p : String × Cell) :
    (applyColPolicy df p).1 = p.1 := by
  unfold applyColPolicy
  split
  · split <;> rfl
  · rfl

theorem applyColPolicy_snd (df : DF) (c : String) (v : Cell) :
    (applyColPolicy df (c, v)).2
      = if is_text_col df c then
          (if c ∈ state_columns then cellUpper v else cellTitle v)
        else v := by
  unfold applyColPolicy
  split
  · split <;> rfl
  · rfl

theorem cellUpper_missing_iff (v : Cell) : cellUpper v = Cell.missing ↔ v = Cell.missing := by
  cases v <;> simp [cellUpper]

theorem getCell_map_policy (df : DF) (r : Row) (c : String) :
    getCell (r.map (applyColPolicy df)) c = (applyColPolicy df (c, getCell r c)).2 := by
  induction r with
  | nil =>
    show Cell.missing = (applyColPolicy df (c, Cell.missing)).2
    rw [applyColPolicy_snd]
    split
    · split <;> rfl
    · rfl
  | cons q t ih =>
    rw [List.map_cons, getCell_cons, getCell_cons, applyColPolicy_fst]
    by_cases hq : q.1 = c
    · rw [if_pos hq, if_pos hq]
      subst hq
      obtain ⟨k, v⟩ := q
      rfl
    · rw [if_neg hq, if_neg hq, ih]

theorem textOk_policy (df : DF) (c : String) (v : Cell) :
    (match (applyColPolicy df (c, v)).2 with
     | Cell.str _ => true
     | Cell.missing => true
     | _ => false)
    = (match v with
       | Cell.str _ => true
       | Cell.missing => true
       | _ => false) := by
  rw [applyColPolicy_snd]
  by_cases ht : is_text_col df c
  · rw [if_pos ht]
    by_cases hs : c ∈ state_columns
    · rw [if_pos hs]
      cases v <;> rfl
    · rw [if_neg hs]
      cases v <;> rfl
  · rw [if_neg ht]

theorem isStr_policy (df : DF) (c : String) (v : Cell) :
    (match (applyColPolicy df (c, v)).2 with
     | Cell.str _ => true
     | _ => false)
    = (match v with
       | Cell.str _ => true
       | _ => false) := by
  rw [applyColPolicy_snd]
  by_cases ht : is_text_col df c
  · rw [if_pos ht]
    by_cases hs : c ∈ state_columns
    · rw [if_pos hs]
      cases v <;> rfl
    · rw [if_neg hs]
      cases v <;> rfl
  · rw [if_neg ht]

theorem is_text_col_apply (df : DF) (c : String) :
    is_text_col (apply_title_case df) c = is_text_col df c := by
  have hrows : (apply_title_case df).rows
      = df.rows.map (fun r => r.map (applyColPolicy df)) := rfl
  unfold is_text_col
  rw [hrows, List.all_map, List.any_map]
  congr 1
  · congr 1
    funext r
    simp only [Function.comp_apply]
    rw [getCell_map_policy]
    exact textOk_policy df c (getCell r c)
  · congr 1
    funext r
    simp only [Function.comp_apply]
    rw [getCell_map_policy]
    exact isStr_policy df c (getCell r c)

theorem cellUpper_idem (v : Cell) : cellUpper (cellUpper v) = cellUpper v := by
  cases v <;> simp [cellUpper, pyUpper_idem]

theorem cellTitle_idem (v : Cell) : cellTitle (cellTitle v) = cellTitle v := by
  cases v <;> simp [cellTitle, pyTitle_idem]

theorem applyColPolicy_idem (df : DF) (p : String × Cell) :
    applyColPolicy (apply_title_case df) (applyColPolicy df p) = applyColPolicy df p := by
  obtain ⟨c, v⟩ := p
  have h2 : applyColPolicy df (c, v) = (c, (applyColPolicy df (c, v)).2) := by
    apply Prod.ext
    · rw [applyColPolicy_fst]
    · rfl
  rw [h2]
  apply Prod.ext
  · rw [applyColPolicy_fst]
  · rw [applyColPolicy_snd, is_text_col_apply]
    by_cases ht : is_text_col df c
    · rw [if_pos ht]
      by_cases hs : c ∈ state_columns
      · rw [if_pos hs, applyColPolicy_snd, if_pos ht, if_pos hs, cellUpper_idem]
      · rw [if_neg hs, applyColPolicy_snd, if_pos ht, if_neg hs, cellTitle_idem]
    · rw [if_neg ht]

theorem apply_title_case_def (df : DF) :
    apply_title_case df
      = DF.mk df.cols (df.rows.map (fun r => r.map (applyColPolicy df))) := rfl

theorem apply_title_case_idem (df : DF) :
    apply_title_case (apply_title_case df) = apply_title_case df := by
  rw [apply_title_case_def (apply_title_case df)]
  have hc : (apply_title_case df).cols = df.cols := rfl
  have hr : (apply_title_case df).rows = df.rows.map (fun r => r.map (applyColPolicy df)) := rfl
  rw [apply_title_case_def df, ← hc, ← hr]
  congr 1
  rw [hr, List.map_map]
  apply List.map_congr_left
  intro r _
  show (r.map (applyColPolicy df)).map (applyColPolicy (apply_title_case df))
    = r.map (applyColPolicy df)
  rw [List.map_map]
  apply List.map_congr_left
  intro p _
  exact applyColPolicy_idem df p

/-! ### Lemmas about deduplication -/

theorem dedupGo_sublist (key : String) (l : List Row) :
    ∀ seen, List.Sublist (dedupGo key seen l) l := by
  induction l with
  | nil =>
    intro seen
    simp [dedupGo]
  | cons r rs ih =>
    intro seen
    simp only [dedupGo]
    by_cases h : getCell r key ∈ seen
    · rw [if_pos h]
      exact List.Sublist.cons r (ih seen)
    · rw [if_neg h]
      exact List.Sublist.cons₂ r (ih _)

theorem dedupGo_notin (key : String) (l : List Row) :
    ∀ seen, ∀ r' ∈ dedupGo key seen l, getCell r' key ∉ seen := by
  induction l with
  | nil =>
    intro seen r' h
    simp [dedupGo] at h
  | cons r rs ih =>
    intro seen r' h
    simp only [dedupGo] at h
    by_cases hk : getCell r key ∈ seen
    · rw [if_pos hk] at h
      exact ih seen r' h
    · rw [if_neg hk] at h
      rcases List.mem_cons.mp h with h | h
      · subst h
        exact hk
      · intro hmem
        exact ih _ r' h (List.mem_cons_of_mem _ hmem)

theorem dedupGo_pairwise (key : String) (l : List Row) :
    ∀ seen, (dedupGo key seen l).Pairwise (fun a b => getCell a key ≠ getCell b key) := by
  induction l with
  | nil =>
    intro seen
    simp [dedupGo]
  | cons r rs ih =>
    intro seen
    simp only [dedupGo]
    by_cases hk : getCell r key ∈ seen
    · rw [if_pos hk]
      exact ih seen
    · rw [if_neg hk]
      refine List.Pairwise.cons ?_ (ih _)
      intro b hb heq
      exact dedupGo_notin key rs _ b hb (by rw [← heq]; exact List.mem_cons_self _ _)

theorem dedupGo_complete (key : String) (l : List Row) :
    ∀ seen, ∀ r ∈ l, getCell r key ∈ seen ∨
      ∃ r' ∈ dedupGo key seen l, getCell r' key = getCell r key := by
  induction l with
  | nil =>
    intro seen r h
    simp at h
  | cons a rs ih =>
    intro seen r h
    simp only [dedupGo]
    by_cases hk : getCell a key ∈ seen
    · rw [if_pos hk]
      rcases List.mem_cons.mp h with h | h
      · subst h
        exact Or.inl hk
      · exact ih seen r h
    · rw [if_neg hk]
      rcases List.mem_cons.mp h with h | h
      · subst h
        exact Or.inr ⟨r, List.mem_cons_self _ _, rfl⟩
      · rcases ih (getCell a key :: seen) r h with hmem | ⟨r', hr', heq⟩
        · rcases List.mem_cons.mp hmem with hh | hh
          · exact Or.inr ⟨a, List.mem_cons_self _ _, hh.symm⟩
          · exact Or.inl hh
        · exact Or.inr ⟨r', List.mem_cons_of_mem _ hr', heq⟩

theorem dedupGo_find (key : String) (l : List Row) :
    ∀ seen, ∀ r' ∈ dedupGo key seen l,
      l.find? (fun r => getCell r key == getCell r' key) = some r' := by
  induction l with
  | nil =>
    intro seen r' h
    simp [dedupGo] at h
  | cons a rs ih =>
    intro seen r' h
    simp only [dedupGo] at h
    by_cases hk : getCell a key ∈ seen
    · rw [if_pos hk] at h
      have hne : ¬ getCell a key = getCell r' key := by
        intro heq
        exact dedupGo_notin key rs seen r' h (heq ▸ hk)
      rw [List.find?_cons_of_neg _ (by simpa using hne)]
      exact ih seen r' h
    · rw [if_neg hk] at h
      rcases List.mem_cons.mp h with h | h
      · subst h
        exact List.find?_cons_of_pos _ (by simp)
      · have hne : ¬ getCell a key = getCell r' key := by
          intro heq
          exact dedupGo_notin key rs _ r' h (by rw [← heq]; exact List.mem_cons_self _ _)
        rw [List.find?_cons_of_neg _ (by simpa using hne)]
        exact ih _ r' h

/-! ### Lemmas about renaming -/

theorem lookupRename_mem :
    ∀ (m : List (String × String)) {c n : String},
      lookupRename m c = some n → (c, n) ∈ m := by
  intro m
  induction m with
  | nil =>
    intro c n h
    simp [lookupRename] at h
  | cons p t ih =>
    intro c n h
    obtain ⟨o, nn⟩ := p
    simp only [lookupRename] at h
    by_cases ho : o = c
    · rw [if_pos ho] at h
      injection h with h2
      subst ho
      subst h2
      exact List.mem_cons_self _ _
    · rw [if_neg ho] at h
      exact List.mem_cons_of_mem _ (ih h)

theorem lookupRename_eq_none (m : List (String × String)) (c : String)
    (h : ∀ p ∈ m, p.1 ≠ c) : lookupRename m c = none := by
  induction m with
  | nil => rfl
  | cons p t ih =>
    obtain ⟨o, n⟩ := p
    simp only [lookupRename]
    rw [if_neg (h (o, n) (List.mem_cons_self _ _))]
    exact ih (fun q hq => h q (List.mem_cons_of_mem _ hq))

theorem renameKey_eq_mailCallRail_iff (c : String) :
    renameKey c = "Mail_CallRail" ↔ c = "Mail_CallRail" := by
  constructor
  · intro h
    unfold renameKey at h
    cases hl : lookupRename COLUMN_RENAMES c with
    | none =>
      rw [hl] at h
      exact h
    | some n =>
      rw [hl] at h
      have hmem := lookupRename_mem COLUMN_RENAMES hl
      have hvals : ∀ p ∈ COLUMN_RENAMES, p.2 ≠ "Mail_CallRail" := by decide
      exact absurd h (hvals (c, n) hmem)
  · intro h
    subst h
    decide

theorem getCell_rename_mailCallRail (r : Row) :
    getCell (r.map (fun p => (renameKey p.1, p.2))) "Mail_CallRail"
      = getCell r "Mail_CallRail" := by
  induction r with
  | nil => rfl
  | cons q t ih =>
    obtain ⟨k, v⟩ := q
    simp only [List.map_cons, getCell_cons]
    by_cases hk : k = "Mail_CallRail"
    · rw [if_pos hk, if_pos ((renameKey_eq_mailCallRail_iff k).mpr hk)]
    · rw [if_neg hk, if_neg (fun h => hk ((renameKey_eq_mailCallRail_iff k).mp h)), ih]

theorem map_id_of_eq {α : Type} (l : List α) (f : α → α) (h : ∀ a ∈ l, f a = a) :
    l.map f = l := by
  induction l with
  | nil => rfl
  | cons a t ih =>
    rw [List.map_cons, h a (List.mem_cons_self _ _),
      ih (fun b hb => h b (List.mem_cons_of_mem _ hb))]

theorem step8_rename_noop (df : DF) (hwf : wfDF df)
    (h : ∀ p ∈ COLUMN_RENAMES, p.1 ∉ df.cols) : step8_rename df = df := by
  have hid : ∀ c ∈ df.cols, renameKey c = c := by
    intro c hc
    unfold renameKey
    rw [lookupRename_eq_none _ c (fun p hp hpc => h p hp (by rw [hpc]; exact hc))]
    rfl
  show DF.mk (df.cols.map renameKey)
      (df.rows.map (fun r => r.map (fun p => (renameKey p.1, p.2)))) = df
  have hcols : df.cols.map renameKey = df.cols := map_id_of_eq _ _ hid
  have hrows : df.rows.map (fun r => r.map (fun p => (renameKey p.1, p.2))) = df.rows := by
    apply map_id_of_eq
    intro r hr
    apply map_id_of_eq
    intro p hp
    have hpk : p.1 ∈ df.cols := by
      rw [← hwf.2 r hr]
      exact List.mem_map_of_mem Prod.fst hp
    apply Prod.ext
    · exact hid p.1 hpk
    · rfl
  rw [hcols, hrows]

/-! ### Lemmas about the company filter and the recency filter -/

theorem filter_company_rows_absent (df : DF) (c : String) (h : c ∉ df.cols) :
    filter_company_rows df c = Sum.inl df := by
  unfold filter_company_rows
  rw [if_neg h]

theorem filter_company_rows_present (df : DF) (c : String) (h : c ∈ df.cols) :
    filter_company_rows df c
      = Sum.inr
          (DF.mk df.cols
            (df.rows.filter (fun r => !(containsAnyKeyword (astype_str (getCell r c))))),
           df.rows.length
             - (df.rows.filter
                 (fun r => !(containsAnyKeyword (astype_str (getCell r c))))).length) := by
  unfold filter_company_rows
  rw [if_pos h]

theorem filter_recent_absent (parse : String → Option Int) (now : Int) (df : DF)
    (date_col : String) (years : Nat) (h : date_col ∉ df.cols) :
    filter_recent_transactions parse now df date_col years = (df, 0) := by
  unfold filter_recent_transactions
  rw [if_neg h]

theorem getCell_rewriteDate_self (parse : String → Option Int) (date_col : String)
    (r : Row) (h : date_col ∈ r.map Prod.fst) :
    getCell (rewriteDate parse date_col r) date_col
      = (match to_datetime parse (getCell r date_col) with
         | none => Cell.missing
         | some t => Cell.timestamp t) := by
  unfold rewriteDate
  exact getCell_setCell_self r date_col _ h

theorem filter_recent_spec (parse : String → Option Int) (now : Int) (df : DF)
    (date_col : String) (years : Nat) (hwf : wfDF df) (hdc : date_col ∈ df.cols) :
    filter_recent_transactions parse now df date_col years
      = (DF.mk df.cols
          ((df.rows.filter (fun r =>
              match to_datetime parse (getCell r date_col) with
              | none => true
              | some t => decide (t < now - (years * 365 : Nat) * 86400))).map
            (rewriteDate parse date_col)),
         df.rows.length
           - (df.rows.filter (fun r =>
               match to_datetime parse (getCell r date_col) with
               | none => true
               | some t => decide (t < now - (years * 365 : Nat) * 86400))).length) := by
  unfold filter_recent_transactions
  rw [if_pos hdc]
  have hkept :
      (df.rows.map (rewriteDate parse date_col)).filter (fun r =>
          match getCell r date_col with
          | Cell.missing => true
          | Cell.timestamp t => decide (t < now - (years * 365 : Nat) * 86400)
          | _ => false)
        = (df.rows.filter (fun r =>
            match to_datetime parse (getCell r date_col) with
            | none => true
            | some t => decide (t < now - (years * 365 : Nat) * 86400))).map
            (rewriteDate parse date_col) := by
    rw [List.filter_map]
    congr 1
    apply List.filter_congr
    intro r hr
    have hmem : date_col ∈ r.map Prod.fst := by
      rw [hwf.2 r hr]
      exact hdc
    simp only [Function.comp_apply]
    rw [getCell_rewriteDate_self parse date_col r hmem]
    cases to_datetime parse (getCell r date_col) <;> rfl
  rw [hkept, List.length_map]

/-! ### Lemmas about columns through the steps -/

theorem step2_prune_cols (df : DF) :
    (step2_prune df).cols = df.cols.filter (fun c => !(decide (c ∈ COLUMNS_TO_DELETE))) := rfl

theorem mem_step2_prune_cols {x : String} (df : DF) (h : x ∈ (step2_prune df).cols) :
    x ∈ df.cols :=
  (List.mem_filter.mp h).1

theorem mem_assignCol_cols (x : String) (df : DF) (c : String) (vals : List Cell) :
    x ∈ (assignCol df c vals).cols ↔ x ∈ df.cols ∨ x = c := by
  by_cases h : c ∈ df.cols
  · simp only [assignCol, if_pos h]
    constructor
    · exact Or.inl
    · rintro (hx | hx)
      · exact hx
      · exact hx ▸ h
  · simp only [assignCol, if_neg h]
    simp [List.mem_append]

theorem step3_synthesize_cols_mem (x : String) (code1 code2 : String) (df : DF) :
    x ∈ (step3_synthesize code1 code2 df).cols
      ↔ x ∈ df.cols ∨ x = "Mail_CallRail" ∨ x = "Lead_Type" ∨ x = "Mail_Type" := by
  unfold step3_synthesize
  rw [mem_assignCol_cols, mem_assignCol_cols, mem_assignCol_cols]
  tauto

theorem step4_dedup_cols (df : DF) : (step4_dedup df).cols = df.cols := by
  unfold step4_dedup
  split <;> rfl

theorem apply_title_case_cols (df : DF) : (apply_title_case df).cols = df.cols := rfl

theorem map_fst_prune_row (r : Row) :
    (r.filter (fun p => !(decide (p.1 ∈ COLUMNS_TO_DELETE)))).map Prod.fst
      = (r.map Prod.fst).filter (fun c => !(decide (c ∈ COLUMNS_TO_DELETE))) := by
  induction r with
  | nil => rfl
  | cons p t ih =>
    rw [List.map_cons]
    simp only [List.filter_cons]
    by_cases hq : (!(decide (p.1 ∈ COLUMNS_TO_DELETE))) = true
    · simp [hq, ih]
    · simp [hq, ih]

theorem wf_step2_prune (df : DF) (hwf : wfDF df) : wfDF (step2_prune df) := by
  constructor
  · exact List.Nodup.filter _ hwf.1
  · intro r hr
    rcases List.mem_map.mp hr with ⟨r0, hr0, hEq⟩
    rw [← hEq, map_fst_prune_row, hwf.2 r0 hr0, step2_prune_cols]

/-! ### Lemmas about column synthesis -/

theorem assignCol_rows_of_not_mem (df : DF) (c : String) (vals : List Cell)
    (h : c ∉ df.cols) :
    (assignCol df c vals).rows = (df.rows.zip vals).map (fun rv => rv.1 ++ [(c, rv.2)]) := by
  simp only [assignCol, if_neg h]

theorem assignCol_cols_of_not_mem (df : DF) (c : String) (vals : List Cell)
    (h : c ∉ df.cols) :
    (assignCol df c vals).cols = df.cols ++ [c] := by
  simp only [assignCol, if_neg h]

theorem assignCol_rows_length_of_not_mem (df : DF) (c : String) (vals : List Cell)
    (h : c ∉ df.cols) (hlen : vals.length = df.rows.length) :
    (assignCol df c vals).rows.length = df.rows.length := by
  rw [assignCol_rows_of_not_mem df c vals h, List.length_map, List.length_zip, hlen,
    Nat.min_self]

theorem getCell_append_head (A : Row) (c : String) (v : Cell) (B : Row)
    (hA : c ∉ A.map Prod.fst) :
    getCell (A ++ (c, v) :: B) c = v := by
  rw [getCell_append, if_neg hA, getCell_cons, if_pos (show (c, v).1 = c from rfl)]

theorem step3_mailCallRail_map (code1 code2 : String) (df : DF)
    (h1 : "Mail_CallRail" ∉ df.cols) (h2 : "Lead_Type" ∉ df.cols)
    (h3 : "Mail_Type" ∉ df.cols)
    (hrows : ∀ r ∈ df.rows, r.map Prod.fst = df.cols) :
    (step3_synthesize code1 code2 df).rows.map (fun r => getCell r "Mail_CallRail")
      = (List.range df.rows.length).map
          (fun i => Cell.str (if i % 2 = 0 then code1 else code2)) := by
  set V := (List.range df.rows.length).map
    (fun i => Cell.str (if i % 2 = 0 then code1 else code2)) with hV
  set d1 := assignCol df "Mail_CallRail" V with hd1
  set d2 := assignCol d1 "Lead_Type" (List.replicate d1.rows.length (Cell.str "Basic"))
    with hd2
  set d3 := assignCol d2 "Mail_Type" (List.replicate d2.rows.length (Cell.str "Neutral Postcard"))
    with hd3
  have hstep : step3_synthesize code1 code2 df = d3 := rfl
  have hlenV : V.length = df.rows.length := by
    rw [hV, List.length_map, List.length_range]
  have hrows1 : d1.rows = (df.rows.zip V).map (fun rv => rv.1 ++ [("Mail_CallRail", rv.2)]) :=
    assignCol_rows_of_not_mem df _ V h1
  have hlen1 : d1.rows.length = df.rows.length :=
    assignCol_rows_length_of_not_mem df _ V h1 hlenV
  have hcols1 : d1.cols = df.cols ++ ["Mail_CallRail"] :=
    assignCol_cols_of_not_mem df _ V h1
  have hLT1 : "Lead_Type" ∉ d1.cols := by
    rw [hcols1]
    intro hmem
    rcases List.mem_append.mp hmem with hmem | hmem
    · exact h2 hmem
    · exact absurd hmem (by decide)
  have hrows2 : d2.rows
      = (d1.rows.zip (List.replicate d1.rows.length (Cell.str "Basic"))).map
          (fun rv => rv.1 ++ [("Lead_Type", rv.2)]) :=
    assignCol_rows_of_not_mem d1 _ _ hLT1
  have hlen2 : d2.rows.length = df.rows.length := by
    rw [assignCol_rows_length_of_not_mem d1 _ _ hLT1 (by rw [List.length_replicate]), hlen1]
  have hcols2 : d2.cols = d1.cols ++ ["Lead_Type"] :=
    assignCol_cols_of_not_mem d1 _ _ hLT1
  have hMT2 : "Mail_Type" ∉ d2.cols := by
    rw [hcols2, hcols1]
    intro hmem
    rcases List.mem_append.mp hmem with hmem | hmem
    · rcases List.mem_append.mp hmem with hmem | hmem
      · exact h3 hmem
      · exact absurd hmem (by decide)
    · exact absurd hmem (by decide)
  have hrows3 : d3.rows
      = (d2.rows.zip (List.replicate d2.rows.length (Cell.str "Neutral Postcard"))).map
          (fun rv => rv.1 ++ [("Mail_Type", rv.2)]) :=
    assignCol_rows_of_not_mem d2 _ _ hMT2
  have hlen3 : d3.rows.length = df.rows.length := by
    rw [assignCol_rows_length_of_not_mem d2 _ _ hMT2 (by rw [List.length_replicate]), hlen2]
  rw [hstep]
  apply List.ext_getElem
  · rw [List.length_map, hlen3, hlenV]
  · intro i hi1 hi2
    have hin : i < df.rows.length := by
      rw [List.length_map, hlen3] at hi1
      exact hi1
    have hi3 : i < d3.rows.length := by rw [hlen3]; exact hin
    have hi2' : i < d2.rows.length := by rw [hlen2]; exact hin
    have hi1' : i < d1.rows.length := by rw [hlen1]; exact hin
    have hiV : i < V.length := by rw [hlenV]; exact hin
    rw [List.getElem_map]
    have e3 : d3.rows[i]
        = d2.rows[i] ++ [("Mail_Type", Cell.str "Neutral Postcard")] := by
      simp only [hrows3]
      rw [List.getElem_map, List.getElem_zip, List.getElem_replicate]
    have e2 : d2.rows[i]
        = d1.rows[i] ++ [("Lead_Type", Cell.str "Basic")] := by
      simp only [hrows2]
      rw [List.getElem_map, List.getElem_zip, List.getElem_replicate]
    have e1 : d1.rows[i] = df.rows[i] ++ [("Mail_CallRail", V[i])] := by
      simp only [hrows1]
      rw [List.getElem_map, List.getElem_zip]
    rw [e3, e2, e1, List.append_assoc, List.append_assoc, List.singleton_append]
    have hkeys : "Mail_CallRail" ∉ (df.rows[i]).map Prod.fst := by
      rw [hrows df.rows[i] (List.getElem_mem hin)]
      exact h1
    rw [getCell_append_head _ _ _ _ hkeys]

theorem step3_mailCallRail_mem (code1 code2 : String) (df : DF)
    (h1 : "Mail_CallRail" ∉ df.cols) (h2 : "Lead_Type" ∉ df.cols)
    (h3 : "Mail_Type" ∉ df.cols)
    (hrows : ∀ r ∈ df.rows, r.map Prod.fst = df.cols) :
    ∀ r ∈ (step3_synthesize code1 code2 df).rows,
      ∃ i, i < df.rows.length
        ∧ getCell r "Mail_CallRail" = Cell.str (if i % 2 = 0 then code1 else code2) := by
  intro r hr
  have hmap := step3_mailCallRail_map code1 code2 df h1 h2 h3 hrows
  have hlen : (step3_synthesize code1 code2 df).rows.length = df.rows.length := by
    have hc := congrArg List.length hmap
    rw [List.length_map, List.length_map, List.length_range] at hc
    exact hc
  rcases List.mem_iff_getElem.mp hr with ⟨j, hj, hrj⟩
  have hjn : j < df.rows.length := by rw [← hlen]; exact hj
  refine ⟨j, hjn, ?_⟩
  have hbound : j < ((step3_synthesize code1 code2 df).rows.map
      (fun r => getCell r "Mail_CallRail")).length := by
    rw [List.length_map]
    exact hj
  have heq := List.getElem_of_eq hmap hbound
  rw [List.getElem_map, List.getElem_map, List.getElem_range, hrj] at heq
  exact heq

/-! ### Lemmas about the pipeline composition -/

theorem runPipeline_def (parse : String → Option Int) (now : Int)
    (code1 code2 : String) (merged_df : DF) :
    runPipeline parse now code1 code2 merged_df
      = match filter_company_rows
            (apply_title_case (step4_dedup (step3_synthesize code1 code2 (step2_prune merged_df))))
            "OWNER_NAME_1" with
        | Sum.inl _ =>
          Except.error { step := "Step 6: Filtering out company records",
                         msg := "too many values to unpack (expected 2)" }
        | Sum.inr (df6, _) =>
          Except.ok (step8_rename (filter_recent_transactions parse now df6 "DATE_TRANSFER" 10).1) := rfl

theorem step4_dedup_rows_subset (df : DF) :
    ∀ r ∈ (step4_dedup df).rows, r ∈ df.rows := by
  intro r hr
  unfold step4_dedup at hr
  by_cases h : "AGGR_GROUP" ∈ df.cols
  · rw [if_pos h] at hr
    exact (dedupGo_sublist _ df.rows []).subset hr
  · rw [if_neg h] at hr
    exact hr

theorem filter_company_rows_inr (df5 df6 : DF) (n6 : Nat) (c : String)
    (hcf : filter_company_rows df5 c = Sum.inr (df6, n6)) :
    c ∈ df5.cols ∧ df6.cols = df5.cols ∧ ∀ r ∈ df6.rows, r ∈ df5.rows := by
  unfold filter_company_rows at hcf
  by_cases h : c ∈ df5.cols
  · rw [if_pos h] at hcf
    simp only [Sum.inr.injEq, Prod.mk.injEq] at hcf
    refine ⟨h, ?_, ?_⟩
    · rw [← hcf.1]
    · intro r hr
      rw [← hcf.1] at hr
      exact List.mem_of_mem_filter hr
  · rw [if_neg h] at hcf
    cases hcf

theorem filter_recent_preserves_other (parse : String → Option Int) (now : Int)
    (df : DF) (date_col : String) (years : Nat) (c : String) (hne : date_col ≠ c) :
    ∀ r2 ∈ (filter_recent_transactions parse now df date_col years).1.rows,
      ∃ r ∈ df.rows, getCell r2 c = getCell r c := by
  intro r2 hr2
  unfold filter_recent_transactions at hr2
  by_cases hdc : date_col ∈ df.cols
  · rw [if_pos hdc] at hr2
    have hr2' : r2 ∈ df.rows.map (rewriteDate parse date_col) :=
      List.mem_of_mem_filter hr2
    rcases List.mem_map.mp hr2' with ⟨r, hr, hEq⟩
    refine ⟨r, hr, ?_⟩
    rw [← hEq]
    unfold rewriteDate
    exact getCell_setCell_of_ne r date_col c _ hne
  · rw [if_neg hdc] at hr2
    exact ⟨r2, hr2, rfl⟩

/-! ### Settling the claims -/

/-- C2: contrary to the claim, when the owner-name column is absent
the CompanyFilter step does not pass the table through and continue:
`filter_company_rows` returns the bare table (not a (table, count)
pair), the Step 6 unpacking `merged_df, company_removed = ...` raises,
and the run aborts with no output.  The guard plainly intends a
graceful skip (the sibling `filter_recent_transactions` returns
`df, 0` in the same situation), so this is a bug in the code. -/
theorem C2_companyFilter_absent_aborts (df : DF) (parse : String → Option Int)
    (now : Int) (code1 code2 : String) (h : "OWNER_NAME_1" ∉ df.cols) :
    filter_company_rows df "OWNER_NAME_1" = Sum.inl df
    ∧ runPipeline parse now code1 code2 df
        = Except.error { step := "Step 6: Filtering out company records",
                         msg := "too many values to unpack (expected 2)" }
    ∧ (moduleHandler (runPipeline parse now code1 code2 df)).1 = none := by
  have h5 : "OWNER_NAME_1"
      ∉ (apply_title_case (step4_dedup (step3_synthesize code1 code2 (step2_prune df)))).cols := by
    rw [apply_title_case_cols, step4_dedup_cols]
    intro hmem
    rcases (step3_synthesize_cols_mem _ _ _ _).mp hmem with hm | hm | hm | hm
    · exact h (mem_step2_prune_cols _ hm)
    · exact absurd hm (by decide)
    · exact absurd hm (by decide)
    · exact absurd hm (by decide)
  have hrun : runPipeline parse now code1 code2 df
      = Except.error { step := "Step 6: Filtering out company records",
                       msg := "too many values to unpack (expected 2)" } := by
    rw [runPipeline_def, filter_company_rows_absent _ _ h5]
  exact ⟨filter_company_rows_absent df _ h, hrun, by rw [hrun]; rfl⟩

/-- Witness for C2 at a concrete three-column table lacking
`OWNER_NAME_1`. -/
theorem C2_witness :
    filter_company_rows dfNoOwner "OWNER_NAME_1" = Sum.inl dfNoOwner
    ∧ runPipeline (fun _ => none) 0 "ab" "cd" dfNoOwner
        = Except.error { step := "Step 6: Filtering out company records",
                         msg := "too many values to unpack (expected 2)" }
    ∧ (moduleHandler (runPipeline (fun _ => none) 0 "ab" "cd" dfNoOwner)).1 = none :=
  C2_companyFilter_absent_aborts dfNoOwner (fun _ => none) 0 "ab" "cd" (by decide)

/-- C9 counterexample: two runs failing in different steps with the
same exception text surface identical handler messages, so the single
surfaced message does not identify the failing step. -/
theorem C9_counterexample :
    ¬ (∀ e1 e2 : StepFault, handlerMessage e1 = handlerMessage e2 → e1.step = e2.step) := by
  intro hid
  have h := hid { step := "Step 4: Removing duplicates", msg := "boom" }
    { step := "Step 7: Filtering recent transactions", msg := "boom" } rfl
  exact absurd h (by decide)

/-- C9 (amended): on any unhandled fault the run aborts, produces no
output table, and surfaces exactly one human-readable message, namely
"Error processing files: " followed by the exception text; the message
is built from the exception text alone and does not name the failing
step.  A successful run yields the table and no error message. -/
theorem C9_abort_surface (e : StepFault) (df : DF) (parse : String → Option Int)
    (now : Int) (code1 code2 : String) (mdf : DF) :
    moduleHandler (Except.error e) = (none, some ("Error processing files: " ++ e.msg))
    ∧ moduleHandler (Except.ok df) = (some df, none)
    ∧ (∀ e2 : StepFault, runPipeline parse now code1 code2 mdf = Except.error e2 →
        moduleHandler (runPipeline parse now code1 code2 mdf)
          = (none, some ("Error processing files: " ++ e2.msg))) := by
  refine ⟨rfl, rfl, ?_⟩
  intro e2 h
  rw [h]
  rfl

/-- Witness for C9 at a concrete fault and a concrete aborting run. -/
theorem C9_witness :
    (moduleHandler (Except.error { step := "Step 4: Removing duplicates", msg := "boom" })
        = (none, some ("Error processing files: " ++ "boom"))
    ∧ moduleHandler (Except.ok dfOwnerOnly) = (some dfOwnerOnly, none)
    ∧ (∀ e2 : StepFault, runPipeline (fun _ => none) 0 "ab" "cd" dfNoOwner = Except.error e2 →
        moduleHandler (runPipeline (fun _ => none) 0 "ab" "cd" dfNoOwner)
          = (none, some ("Error processing files: " ++ e2.msg))))
    ∧ moduleHandler (runPipeline (fun _ => none) 0 "ab" "cd" dfNoOwner)
        = (none, some ("Error processing files: "
            ++ "too many values to unpack (expected 2)")) :=
  ⟨C9_abort_surface { step := "Step 4: Removing duplicates", msg := "boom" } dfOwnerOnly
      (fun _ => none) 0 "ab" "cd" dfNoOwner,
   (C9_abort_surface { step := "Step 4: Removing duplicates", msg := "boom" } dfOwnerOnly
      (fun _ => none) 0 "ab" "cd" dfNoOwner).2.2
     { step := "Step 6: Filtering out company records",
       msg := "too many values to unpack (expected 2)" } rfl⟩

/-- C6 counterexample: on the one-row table with value "a-b" in a
non-state text column, the normalizer produces "A-B" (Python title
semantics: a letter following a hyphen starts a new word), while the
claim's whitespace-delimited definition produces "A-b". -/
theorem C6_counterexample :
    (apply_title_case dfHyphen).rows = [[("A", Cell.str "A-B")]]
    ∧ specTitle "a-b" = "A-b"
    ∧ ("A-B" : String) ≠ "A-b" :=
  ⟨by decide, by decide, by decide⟩

/-- C6 (amended): for every text-typed column, the normalizer
uppercases every non-missing value when the column is in the
region/state set, and otherwise rewrites every non-missing value to
its Python title-cased form, where a word is a maximal run of letters
(a new word starts after any non-letter character, not only after
whitespace); missing values pass through. -/
theorem C6_textNormalizer (df : DF) (c : String) (ht : is_text_col df c = true) :
    (apply_title_case df).rows.map (fun r => getCell r c)
      = df.rows.map (fun r =>
          match getCell r c with
          | Cell.str s =>
            Cell.str (if c ∈ state_columns then pyUpper s else pyTitle s)
          | v => v) := by
  have hrows : (apply_title_case df).rows
      = df.rows.map (fun r => r.map (applyColPolicy df)) := rfl
  rw [hrows, List.map_map]
  apply List.map_congr_left
  intro r _
  simp only [Function.comp_apply]
  rw [getCell_map_policy, applyColPolicy_snd, if_pos ht]
  by_cases hs : c ∈ state_columns
  · simp only [if_pos hs]
    cases getCell r c <;> rfl
  · simp only [if_neg hs]
    cases getCell r c <;> rfl

/-- Witness for C6 on a concrete table, for a plain text column and a
state column. -/
theorem C6_witness :
    ((apply_title_case dfTexts).rows.map (fun r => getCell r "OWNER_CITY")
      = dfTexts.rows.map (fun r =>
          match getCell r "OWNER_CITY" with
          | Cell.str s =>
            Cell.str (if "OWNER_CITY" ∈ state_columns then pyUpper s else pyTitle s)
          | v => v))
    ∧ ((apply_title_case dfTexts).rows.map (fun r => getCell r "OWNER_STATE")
      = dfTexts.rows.map (fun r =>
          match getCell r "OWNER_STATE" with
          | Cell.str s =>
            Cell.str (if "OWNER_STATE" ∈ state_columns then pyUpper s else pyTitle s)
          | v => v)) :=
  ⟨C6_textNormalizer dfTexts "OWNER_CITY" (by decide),
   C6_textNormalizer dfTexts "OWNER_STATE" (by decide)⟩

/-- C3: with the date column present, the recency filter retains
exactly the rows whose date fails to parse (including missing dates)
or parses strictly before the cutoff `now - years * 365` days, in
their original order with the date column rewritten to the parsed
value; the removed count is the number of dropped rows.  With the
column absent the table passes through with zero removed.  The call
site uses the default `years = 10`. -/
theorem C3_recencyFilter (parse : String → Option Int) (now : Int) (df : DF)
    (years : Nat) (hwf : wfDF df) :
    ("DATE_TRANSFER" ∈ df.cols →
      (filter_recent_transactions parse now df "DATE_TRANSFER" years).1.rows
        = (df.rows.filter (fun r =>
            match to_datetime parse (getCell r "DATE_TRANSFER") with
            | none => true
            | some t => decide (t < now - (years * 365 : Nat) * 86400))).map
            (rewriteDate parse "DATE_TRANSFER")
      ∧ (filter_recent_transactions parse now df "DATE_TRANSFER" years).2
          = df.rows.length - (df.rows.filter (fun r =>
              match to_datetime parse (getCell r "DATE_TRANSFER") with
              | none => true
              | some t => decide (t < now - (years * 365 : Nat) * 86400))).length)
    ∧ ("DATE_TRANSFER" ∉ df.cols →
        filter_recent_transactions parse now df "DATE_TRANSFER" years = (df, 0)) := by
  constructor
  · intro hdc
    rw [filter_recent_spec parse now df _ years hwf hdc]
    exact ⟨rfl, rfl⟩
  · intro hdc
    exact filter_recent_absent parse now df _ years hdc

/-- Witness for C3 on a concrete table: the old date is kept (and
rewritten to its timestamp), the unparseable and missing dates are
kept as missing, the recent date is dropped, and one row is counted as
removed. -/
theorem C3_witness :
    (filter_recent_transactions sampleParse 1000000000000 dfDates "DATE_TRANSFER" 10).1.rows
        = [[("DATE_TRANSFER", Cell.timestamp 0)],
           [("DATE_TRANSFER", Cell.missing)],
           [("DATE_TRANSFER", Cell.missing)]]
    ∧ (filter_recent_transactions sampleParse 1000000000000 dfDates "DATE_TRANSFER" 10).2 = 1 := by
  have h := (C3_recencyFilter sampleParse 1000000000000 dfDates 10 (by decide)).1 (by decide)
  exact ⟨h.1.trans (by decide), h.2.trans (by decide)⟩

/-- C10: with the date column present, every retained row is the
parse-rewrite of an input row: its date cell carries the parsed
timestamp when the original value parsed, and the missing marker when
it did not (in particular an unparseable original text is not
preserved). -/
theorem C10_dateRewrite (parse : String → Option Int) (now : Int) (df : DF)
    (years : Nat) (hwf : wfDF df) (hdc : "DATE_TRANSFER" ∈ df.cols) :
    ∀ r2 ∈ (filter_recent_transactions parse now df "DATE_TRANSFER" years).1.rows,
      ∃ r ∈ df.rows, r2 = rewriteDate parse "DATE_TRANSFER" r
        ∧ getCell r2 "DATE_TRANSFER"
            = (match to_datetime parse (getCell r "DATE_TRANSFER") with
               | none => Cell.missing
               | some t => Cell.timestamp t) := by
  intro r2 hr2
  rw [filter_recent_spec parse now df _ years hwf hdc] at hr2
  rcases List.mem_map.mp hr2 with ⟨r, hrf, hEq⟩
  have hrmem : r ∈ df.rows := List.mem_of_mem_filter hrf
  refine ⟨r, hrmem, hEq.symm, ?_⟩
  rw [← hEq]
  exact getCell_rewriteDate_self parse _ r (by rw [hwf.2 r hrmem]; exact hdc)

/-- Witness for C10: the retained missing-date row of the concrete
table is the rewrite of an input row whose date did not parse. -/
theorem C10_witness :
    ∃ r ∈ dfDates.rows, [("DATE_TRANSFER", Cell.missing)] = rewriteDate sampleParse "DATE_TRANSFER" r
      ∧ getCell [("DATE_TRANSFER", Cell.missing)] "DATE_TRANSFER"
          = (match to_datetime sampleParse (getCell r "DATE_TRANSFER") with
             | none => Cell.missing
             | some t => Cell.timestamp t) :=
  C10_dateRewrite sampleParse 1000000000000 dfDates 10 (by decide) (by decide)
    [("DATE_TRANSFER", Cell.missing)] (by decide)

/-- C4: with the owner-name column present, the CompanyFilter returns
the table and removed count, keeping exactly the rows whose coerced
owner-name text contains none of the 8 fixed keywords as a
case-insensitive substring, in their original relative order; "Smith
Family LLC" matches, "Smith Family" does not, and the coerced missing
marker never matches. -/
theorem C4_companyFilter (df : DF) (h : "OWNER_NAME_1" ∈ df.cols) :
    (∃ df2 n, filter_company_rows df "OWNER_NAME_1" = Sum.inr (df2, n)
      ∧ df2.cols = df.cols
      ∧ List.Sublist df2.rows df.rows
      ∧ (∀ r ∈ df.rows, (r ∈ df2.rows
          ↔ containsAnyKeyword (astype_str (getCell r "OWNER_NAME_1")) = false))
      ∧ n = df.rows.length - df2.rows.length)
    ∧ COMPANY_KEYWORDS.length = 8
    ∧ containsAnyKeyword "Smith Family LLC" = true
    ∧ containsAnyKeyword "Smith Family" = false
    ∧ containsAnyKeyword (astype_str Cell.missing) = false := by
  refine ⟨?_, by decide, by decide, by decide, by decide⟩
  refine ⟨DF.mk df.cols (df.rows.filter
      (fun r => !(containsAnyKeyword (astype_str (getCell r "OWNER_NAME_1"))))),
    df.rows.length - (df.rows.filter
      (fun r => !(containsAnyKeyword (astype_str (getCell r "OWNER_NAME_1"))))).length,
    filter_company_rows_present df _ h, rfl, ?_, ?_, rfl⟩
  · exact List.filter_sublist _
  · intro r hr
    constructor
    · intro hmem
      have h2 := (List.mem_filter.mp hmem).2
      simpa using h2
    · intro hfalse
      refine List.mem_filter.mpr ⟨hr, ?_⟩
      simp [hfalse]

/-- Witness for C4 on the concrete owner table. -/
theorem C4_witness :
    ((∃ df2 n, filter_company_rows dfOwners "OWNER_NAME_1" = Sum.inr (df2, n)
      ∧ df2.cols = dfOwners.cols
      ∧ List.Sublist df2.rows dfOwners.rows
      ∧ (∀ r ∈ dfOwners.rows, (r ∈ df2.rows
          ↔ containsAnyKeyword (astype_str (getCell r "OWNER_NAME_1")) = false))
      ∧ n = dfOwners.rows.length - df2.rows.length)
    ∧ COMPANY_KEYWORDS.length = 8
    ∧ containsAnyKeyword "Smith Family LLC" = true
    ∧ containsAnyKeyword "Smith Family" = false
    ∧ containsAnyKeyword (astype_str Cell.missing) = false) :=
  C4_companyFilter dfOwners (by decide)

/-- C5: with the grouping-key column present, the Deduplicator keeps a
subsequence of the rows (original order preserved) whose keys are
pairwise distinct, every input key is represented, and each surviving
row is exactly the first input row bearing its key (missing keys
compare equal, so they form one group); with the column absent the
table passes through unchanged. -/
theorem C5_dedup (df : DF) :
    ("AGGR_GROUP" ∈ df.cols →
      (step4_dedup df).cols = df.cols
      ∧ List.Sublist (step4_dedup df).rows df.rows
      ∧ (step4_dedup df).rows.Pairwise
          (fun a b => getCell a "AGGR_GROUP" ≠ getCell b "AGGR_GROUP")
      ∧ (∀ r ∈ df.rows, ∃ r2 ∈ (step4_dedup df).rows,
          getCell r2 "AGGR_GROUP" = getCell r "AGGR_GROUP")
      ∧ (∀ r2 ∈ (step4_dedup df).rows,
          df.rows.find? (fun r => getCell r "AGGR_GROUP" == getCell r2 "AGGR_GROUP")
            = some r2))
    ∧ ("AGGR_GROUP" ∉ df.cols → step4_dedup df = df) := by
  constructor
  · intro h
    have hrows : (step4_dedup df).rows = dedupGo "AGGR_GROUP" [] df.rows := by
      unfold step4_dedup
      rw [if_pos h]
    refine ⟨step4_dedup_cols df, ?_, ?_, ?_, ?_⟩
    · rw [hrows]
      exact dedupGo_sublist _ _ []
    · rw [hrows]
      exact dedupGo_pairwise _ _ []
    · intro r hr
      rw [hrows]
      rcases dedupGo_complete "AGGR_GROUP" df.rows [] r hr with hmem | hex
      · simp at hmem
      · exact hex
    · intro r2 hr2
      rw [hrows] at hr2
      exact dedupGo_find "AGGR_GROUP" df.rows [] r2 hr2
  · intro h
    unfold step4_dedup
    rw [if_neg h]

/-- Witness for C5 on the concrete grouped table with duplicate keys,
including duplicate missing keys. -/
theorem C5_witness :
    ((step4_dedup dfGroups).cols = dfGroups.cols
    ∧ List.Sublist (step4_dedup dfGroups).rows dfGroups.rows
    ∧ (step4_dedup dfGroups).rows.Pairwise
        (fun a b => getCell a "AGGR_GROUP" ≠ getCell b "AGGR_GROUP")
    ∧ (∀ r ∈ dfGroups.rows, ∃ r2 ∈ (step4_dedup dfGroups).rows,
        getCell r2 "AGGR_GROUP" = getCell r "AGGR_GROUP")
    ∧ (∀ r2 ∈ (step4_dedup dfGroups).rows,
        dfGroups.rows.find? (fun r => getCell r "AGGR_GROUP" == getCell r2 "AGGR_GROUP")
          = some r2)) :=
  (C5_dedup dfGroups).1 (by decide)

/-- C7: missing values are never altered: the normalizer maps a
missing cell to a missing cell (the rewritten row being the output row
for that input row), the company filter retains a row whose owner name
is missing, and the recency filter retains a row whose date is
missing, unchanged. -/
theorem C7_missingPreserved (df : DF) (parse : String → Option Int) (now : Int)
    (years : Nat) (c : String) (r : Row) (hwf : wfDF df) :
    (r ∈ df.rows → getCell r c = Cell.missing →
      r.map (applyColPolicy df) ∈ (apply_title_case df).rows
      ∧ getCell (r.map (applyColPolicy df)) c = Cell.missing)
    ∧ ("OWNER_NAME_1" ∈ df.cols → r ∈ df.rows →
        getCell r "OWNER_NAME_1" = Cell.missing →
        ∃ df2 n, filter_company_rows df "OWNER_NAME_1" = Sum.inr (df2, n) ∧ r ∈ df2.rows)
    ∧ ("DATE_TRANSFER" ∈ df.cols → r ∈ df.rows →
        getCell r "DATE_TRANSFER" = Cell.missing →
        r ∈ (filter_recent_transactions parse now df "DATE_TRANSFER" years).1.rows) := by
  refine ⟨?_, ?_, ?_⟩
  · intro hr hm
    constructor
    · exact List.mem_map_of_mem _ hr
    · rw [getCell_map_policy, hm, applyColPolicy_snd]
      by_cases ht : is_text_col df c
      · rw [if_pos ht]
        by_cases hs : c ∈ state_columns
        · rw [if_pos hs]
          rfl
        · rw [if_neg hs]
          rfl
      · rw [if_neg ht]
  · intro hc hr hm
    refine ⟨_, _, filter_company_rows_present df _ hc, ?_⟩
    refine List.mem_filter.mpr ⟨hr, ?_⟩
    rw [hm]
    decide
  · intro hc hr hm
    rw [filter_recent_spec parse now df _ years hwf hc]
    have hkeys : (r.map Prod.fst).Nodup := by
      rw [hwf.2 r hr]
      exact hwf.1
    have hrw : rewriteDate parse "DATE_TRANSFER" r = r := by
      unfold rewriteDate
      rw [hm]
      show setCell r "DATE_TRANSFER" Cell.missing = r
      conv_lhs => rw [← hm]
      exact setCell_getCell_self r _ hkeys
    refine List.mem_map.mpr ⟨r, ?_, hrw⟩
    refine List.mem_filter.mpr ⟨hr, ?_⟩
    rw [hm]
    rfl

/-- Witness for C7 on the concrete mixed table whose first row has a
missing owner name and a missing date. -/
theorem C7_witness :
    getCell (dfTextsRow.map (applyColPolicy dfTexts)) "OWNER_NAME_1" = Cell.missing
    ∧ (∃ df2 n, filter_company_rows dfTexts "OWNER_NAME_1" = Sum.inr (df2, n)
        ∧ dfTextsRow ∈ df2.rows)
    ∧ dfTextsRow ∈ (filter_recent_transactions sampleParse 0 dfTexts "DATE_TRANSFER" 10).1.rows := by
  have h := C7_missingPreserved dfTexts sampleParse 0 10 "OWNER_NAME_1" dfTextsRow (by decide)
  exact ⟨(h.1 (by decide) (by decide)).2,
    h.2.1 (by decide) (by decide) (by decide),
    h.2.2 (by decide) (by decide) (by decide)⟩

/-- C8: the TextNormalizer is idempotent on every table (both the
title-case and the state-column uppercase policies), and the
HeaderRenamer is a no-op on a well-formed table in which no old-map
name remains. -/
theorem C8_idempotence (df df2 : DF) (hwf : wfDF df2)
    (h : ∀ p ∈ COLUMN_RENAMES, p.1 ∉ df2.cols) :
    apply_title_case (apply_title_case df) = apply_title_case df
    ∧ step8_rename df2 = df2 :=
  ⟨apply_title_case_idem df, step8_rename_noop df2 hwf h⟩

/-- Witness for C8 on concrete tables: a mixed text table and an
already-renamed table. -/
theorem C8_witness :
    apply_title_case (apply_title_case dfTexts) = apply_title_case dfTexts
    ∧ step8_rename dfRenamed = dfRenamed :=
  C8_idempotence dfTexts dfRenamed (by decide) (by decide)

/-- C1 counterexample: with codes "ab"/"cd" on a one-row merged table,
the synthesized pre-dedup value at position 0 is "ab", but the final
output table carries "Ab": the normalization step title-cases the
synthesized code column, so the value is not left unchanged by every
later step as claimed. -/
theorem C1_counterexample :
    (match runPipeline (fun _ => none) 0 "ab" "cd" dfOwnerOnly with
     | Except.ok out => out.rows.map (fun r => getCell r "Mail_CallRail")
     | Except.error _ => []) = [Cell.str "Ab"]
    ∧ Cell.str "Ab" ≠ Cell.str "ab" := by
  constructor
  · decide
  · decide

/-- C1 (amended): the synthesized alternating-code value of the row at
zero-based position i of the pre-dedup table is code1 when i is even
and code2 when i is odd; in the final output of a completed run every
row carries the Python title-cased form of its synthesized code
(normalization rewrites the non-state text column `Mail_CallRail`),
and dedup, company filter, recency filter and rename leave the value
itself unchanged regardless of which rows they remove. -/
theorem C1_mailCallRail (code1 code2 : String) (df : DF)
    (parse : String → Option Int) (now : Int) (hwf : wfDF df)
    (h1 : "Mail_CallRail" ∉ df.cols) (h2 : "Lead_Type" ∉ df.cols)
    (h3 : "Mail_Type" ∉ df.cols) (hc1 : code1 ≠ "") (hc2 : code2 ≠ "") :
    ((step3_synthesize code1 code2 (step2_prune df)).rows.map
        (fun r => getCell r "Mail_CallRail")
      = (List.range df.rows.length).map
          (fun i => Cell.str (if i % 2 = 0 then code1 else code2)))
    ∧ (∀ out, runPipeline parse now code1 code2 df = Except.ok out →
        ∀ r ∈ out.rows, ∃ i, i < df.rows.length
          ∧ getCell r "Mail_CallRail"
              = Cell.str (pyTitle (if i % 2 = 0 then code1 else code2))) := by
  have hwf2 : wfDF (step2_prune df) := wf_step2_prune df hwf
  have h1' : "Mail_CallRail" ∉ (step2_prune df).cols :=
    fun hm => h1 (mem_step2_prune_cols df hm)
  have h2' : "Lead_Type" ∉ (step2_prune df).cols :=
    fun hm => h2 (mem_step2_prune_cols df hm)
  have h3' : "Mail_Type" ∉ (step2_prune df).cols :=
    fun hm => h3 (mem_step2_prune_cols df hm)
  have hlen2 : (step2_prune df).rows.length = df.rows.length := by
    show (df.rows.map _).length = _
    rw [List.length_map]
  have hmap := step3_mailCallRail_map code1 code2 (step2_prune df) h1' h2' h3' hwf2.2
  rw [hlen2] at hmap
  have hmem3 := step3_mailCallRail_mem code1 code2 (step2_prune df) h1' h2' h3' hwf2.2
  rw [hlen2] at hmem3
  refine ⟨hmap, ?_⟩
  intro out hout r hr
  rw [runPipeline_def] at hout
  cases hcf : filter_company_rows
      (apply_title_case (step4_dedup (step3_synthesize code1 code2 (step2_prune df))))
      "OWNER_NAME_1" with
  | inl dd =>
    rw [hcf] at hout
    injection hout
  | inr p =>
    obtain ⟨df6, n6⟩ := p
    rw [hcf] at hout
    injection hout with hout2
    subst hout2
    have hr' : r ∈ (filter_recent_transactions parse now df6 "DATE_TRANSFER" 10).1.rows.map
        (fun rr => rr.map (fun q => (renameKey q.1, q.2))) := hr
    rcases List.mem_map.mp hr' with ⟨r7, hr7, hEq7⟩
    have hgc7 : getCell r "Mail_CallRail" = getCell r7 "Mail_CallRail" := by
      rw [← hEq7]
      exact getCell_rename_mailCallRail r7
    rcases filter_recent_preserves_other parse now df6 "DATE_TRANSFER" 10 "Mail_CallRail"
        (by decide) r7 hr7 with ⟨r6, hr6, hgc6⟩
    rcases filter_company_rows_inr _ df6 n6 "OWNER_NAME_1" hcf with ⟨hOwn, hcols6, hsub6⟩
    have hr5 : r6 ∈ (apply_title_case
        (step4_dedup (step3_synthesize code1 code2 (step2_prune df)))).rows :=
      hsub6 r6 hr6
    have hr5' : r6 ∈ (step4_dedup (step3_synthesize code1 code2 (step2_prune df))).rows.map
        (fun rr => rr.map
          (applyColPolicy (step4_dedup (step3_synthesize code1 code2 (step2_prune df))))) := hr5
    rcases List.mem_map.mp hr5' with ⟨r4, hr4, hEq4⟩
    have hr3 : r4 ∈ (step3_synthesize code1 code2 (step2_prune df)).rows :=
      step4_dedup_rows_subset _ r4 hr4
    rcases hmem3 r4 hr3 with ⟨i, hi, hcell⟩
    refine ⟨i, hi, ?_⟩
    have htext : is_text_col
        (step4_dedup (step3_synthesize code1 code2 (step2_prune df))) "Mail_CallRail" = true := by
      unfold is_text_col
      rw [Bool.and_eq_true]
      constructor
      · apply List.all_eq_true.mpr
        intro rr hrr
        rcases hmem3 rr (step4_dedup_rows_subset _ rr hrr) with ⟨j, hj, hcellj⟩
        rw [hcellj]
      · apply List.any_eq_true.mpr
        exact ⟨r4, hr4, by rw [hcell]⟩
    rw [hgc7, hgc6, ← hEq4, getCell_map_policy, hcell, applyColPolicy_snd, if_pos htext,
      if_neg (show "Mail_CallRail" ∉ state_columns by decide)]
    rfl

/-- Witness for C1 on the concrete one-row merged table with codes
"ab" and "cd". -/
theorem C1_witness :
    (((step3_synthesize "ab" "cd" (step2_prune dfOwnerOnly)).rows.map
        (fun r => getCell r "Mail_CallRail"))
      = (List.range dfOwnerOnly.rows.length).map
          (fun i => Cell.str (if i % 2 = 0 then "ab" else "cd")))
    ∧ (∀ out, runPipeline (fun _ => none) 0 "ab" "cd" dfOwnerOnly = Except.ok out →
        ∀ r ∈ out.rows, ∃ i, i < dfOwnerOnly.rows.length
          ∧ getCell r "Mail_CallRail"
              = Cell.str (pyTitle (if i % 2 = 0 then "ab" else "cd"))) :=
  C1_mailCallRail "ab" "cd" dfOwnerOnly (fun _ => none) 0 (by decide) (by decide)
    (by decide) (by decide) (by decide) (by decide)
